import Mathlib

/-!
Verification of the emu65 6502-emulator core against its specification.

The repository snapshot contains three generations of the core:
* `src/cpu5602` — an early stage; only its unit-test file `src/cpu/tests.rs`
  is present, the `cpu.rs` implementation itself is absent.  The definitions
  in namespace `Cpu5602` reconstruct the tested primitives; each doc comment
  states whether the behaviour is pinned by the tests or modelled from the
  specification.
* `src/cpu6502` — a later stage; `src/cpu/instructions/inc_and_decrements.rs`
  is present.  Namespace `Cpu6502` embeds it.
* `src/src` — the latest stage; `src/cpu/instructions/branches.rs` is
  present.  Namespace `Branches` embeds it together with the cycle
  scheduler described in the specification (the scheduler source is absent).

Machine integers are modelled as `Nat` with explicit reductions modulo
`2^8` and `2^16` where the Rust code uses `u8`/`u16` wrapping operations.
-/

namespace Cpu5602

/-- Byte-addressable memory, as in the `MemoryMock` of the tests: a total
map from addresses to byte values. -/
def Mem : Type := Nat → Nat

/-- Processor state of the early `cpu5602` stage, with the fields the test
file `src/cpu5602/src/cpu/tests.rs` reads and writes: `accumulator`,
`index_register_x`, `index_register_y`, `stack_pointer`, `program_counter`,
`processor_status.flags` (kept here as `flags`) and `cycle`. -/
structure CPU where
  accumulator : Nat
  index_register_x : Nat
  index_register_y : Nat
  stack_pointer : Nat
  program_counter : Nat
  flags : Nat
  cycle : Nat
deriving DecidableEq, Repr

/-- Reconstructed from tests: `CPU::new()` as pinned by the test
`should_be_in_reset_state_after_creation` — accumulator, cycle counter,
both index registers, the stack pointer and the whole status byte are `0`,
and the program counter is `0xFFFC`. -/
def CPU.new : CPU :=
  { accumulator := 0
    index_register_x := 0
    index_register_y := 0
    stack_pointer := 0
    program_counter := 0xFFFC
    flags := 0
    cycle := 0 }

/-- Reconstructed from tests: `reset()` as pinned by the two tests of the
`reset` module.  `reset` takes no memory argument in the tests, so it
performs no bus read; it sets the program counter to the constant `0xFFFC`
(test `should_set_program_counter_to_fffc_after_reset`) and maps the status
byte `0b11111111` to `0b11110111`, i.e. it clears bit 3 (Decimal) and
keeps every other bit (second test of the module).  Registers and the
cycle counter are untouched — any reset touching them would contradict
`should_be_in_reset_state_after_creation`, which pins the post-construction
(reset) state with `stack_pointer = 0`. -/
def CPU.reset (c : CPU) : CPU :=
  { c with
    flags := c.flags &&& 0b11110111
    program_counter := 0xFFFC }

/-- Reconstructed from tests: `access_memory(addr, &memory)` returns the
byte stored at `addr` and increments the cycle counter by one
(`access_memory::should_return_a_byte` and
`access_memory::should_increase_cycle_counter`).  The reduction modulo 256
records the `u8` return type of the Rust memory read. -/
def access_memory (c : CPU) (addr : Nat) (mem : Mem) : CPU × Nat :=
  ({ c with cycle := c.cycle + 1 }, mem addr % 256)

/-- Reconstructed from tests: `fetch_byte(&memory)` reads the byte at the
program counter, increments the program counter (wrapping at `2^16`, the
`u16` width) and the cycle counter by one each
(`fetch_byte::should_increase_cycle_counter_and_a_program_counter`). -/
def fetch_byte (c : CPU) (mem : Mem) : CPU × Nat :=
  let (c1, value) := access_memory c c.program_counter mem
  ({ c1 with program_counter := (c1.program_counter + 1) % 65536 }, value)

/-- Reconstructed from tests: `fetch_word(&memory)` performs two
`fetch_byte` reads and combines them little-endian — the byte at the
program counter is the low byte, the next byte the high byte
(`fetch_word::should_return_a_word_pointed_by_a_program_counter_in_little_endian`,
which reads `0x8851` from the bytes `0x51, 0x88`). -/
def fetch_word (c : CPU) (mem : Mem) : CPU × Nat :=
  let (c1, lo) := fetch_byte c mem
  let (c2, hi) := fetch_byte c1 mem
  (c2, hi * 256 + lo)

/-- Reconstructed from tests: `push_byte_to_stack(value, &mut memory)`
writes the byte to the first page at `0x0100 | stack_pointer`, then
increments the stack pointer (wrapping as a byte) and the cycle counter by
one each.  The direction of the stack-pointer move is pinned by
`push_byte_to_stack::should_increase_cycle_counter_and_stack_pointer_by_one`:
with `stack_pointer = 0x02` the byte lands at `0x0102` and the stack
pointer becomes `0x03`. -/
def push_byte_to_stack (c : CPU) (value : Nat) (mem : Mem) : CPU × Mem :=
  let addr := 0x0100 ||| (c.stack_pointer % 256)
  let mem1 : Mem := fun a => if a = addr then value % 256 else mem a
  ({ c with
      stack_pointer := (c.stack_pointer + 1) % 256
      cycle := c.cycle + 1 }, mem1)

/-- Modelled from the spec: `pop_byte` is absent from the snapshot (no
implementation and no test).  Section 4.3 of the specification says that it
operates on stack address `0x0100 | S` and "pop increments S before
reading (one tick per byte)". -/
def pop_byte_from_stack (c : CPU) (mem : Mem) : CPU × Nat :=
  let s1 := (c.stack_pointer + 1) % 256
  ({ c with stack_pointer := s1, cycle := c.cycle + 1 },
   mem (0x0100 ||| s1) % 256)

/-- Modelled from the spec: `put_into_memory(addr, value)` is absent from
the snapshot.  Section 4.3 of the specification says it "writes memory at
addr (one tick)". -/
def put_into_memory (c : CPU) (addr value : Nat) (mem : Mem) : CPU × Mem :=
  ({ c with cycle := c.cycle + 1 },
   fun a => if a = addr then value % 256 else mem a)

/-- Concrete memory used to test the reset-vector part of the claims: the
reset vector bytes `0x34`, `0x12` live at `0xFFFC`/`0xFFFD`, as in the
specification scenario (a). -/
def vector_mem : Mem := fun a =>
  if a = 0xFFFC then 0x34 else if a = 0xFFFD then 0x12 else 0

/-- Concrete processor state with all fields nonzero, used to instantiate
universally quantified theorems about the `cpu5602` stage. -/
def sample : CPU :=
  { accumulator := 1
    index_register_x := 2
    index_register_y := 3
    stack_pointer := 4
    program_counter := 0x1234
    flags := 0xFF
    cycle := 9 }

/-- Memory that is zero everywhere, as in `MemoryMock` outside the
initialised prefix. -/
def mem0 : Mem := fun _ => 0

/-- C1, counterexample.  With the reset vector bytes `0x34`/`0x12` at
`0xFFFC`/`0xFFFD` and a freshly constructed processor, `reset()` leaves the
program counter at `0xFFFC`, not at the little-endian vector value
`0x1234`; moreover status bit 5 is `0` after reset (reset preserves it and
it is `0` at construction) and the stack pointer is `0`, not `0xFD`. -/
theorem reset_claim_counterexample :
    (CPU.new.reset).program_counter = 0xFFFC ∧
    vector_mem 0xFFFC + 256 * vector_mem 0xFFFD = 0x1234 ∧
    (CPU.new.reset).program_counter ≠ 0x1234 ∧
    (CPU.new.reset).flags.testBit 5 = false ∧
    (CPU.new.reset).stack_pointer ≠ 0xFD := by
  refine ⟨rfl, rfl, by decide, by decide, by decide⟩

/-- C1, amended.  `reset()` performs no memory read: it sets the program
counter to the constant `0xFFFC`, clears status bit 3 (Decimal), preserves
every other status bit, and leaves the accumulator, both index registers,
the stack pointer and the cycle counter unchanged. -/
theorem reset_sets_pc_and_clears_decimal (c : CPU) (i : Nat)
    (hi : i < 8) (hne : i ≠ 3) :
    (c.reset).program_counter = 0xFFFC ∧
    (c.reset).flags.testBit 3 = false ∧
    (c.reset).flags.testBit i = c.flags.testBit i ∧
    (c.reset).accumulator = c.accumulator ∧
    (c.reset).index_register_x = c.index_register_x ∧
    (c.reset).index_register_y = c.index_register_y ∧
    (c.reset).stack_pointer = c.stack_pointer ∧
    (c.reset).cycle = c.cycle := by
  refine ⟨rfl, ?_, ?_, rfl, rfl, rfl, rfl, rfl⟩
  · show (c.flags &&& 0b11110111).testBit 3 = false
    rw [Nat.testBit_land]
    have h3 : Nat.testBit 0b11110111 3 = false := by decide
    simp [h3]
  · show (c.flags &&& 0b11110111).testBit i = c.flags.testBit i
    rw [Nat.testBit_land]
    have : Nat.testBit 0b11110111 i = true := by
      interval_cases i
      all_goals first | decide | exact absurd rfl hne
    simp [this]

/-- C1, witness for the amended theorem at a concrete state and bit. -/
theorem reset_sets_pc_and_clears_decimal_witness :
    (sample.reset).program_counter = 0xFFFC ∧
    (sample.reset).flags.testBit 3 = false ∧
    (sample.reset).flags.testBit 7 = sample.flags.testBit 7 ∧
    (sample.reset).accumulator = sample.accumulator ∧
    (sample.reset).index_register_x = sample.index_register_x ∧
    (sample.reset).index_register_y = sample.index_register_y ∧
    (sample.reset).stack_pointer = sample.stack_pointer ∧
    (sample.reset).cycle = sample.cycle :=
  reset_sets_pc_and_clears_decimal sample 7 (by decide) (by decide)

/-- C2, counterexample.  Immediately after construction the stack pointer
is `0`, not `0xFD`, and the status byte is `0`, so the Unused bit (bit 5)
is `0`, not `1`. -/
theorem new_claim_counterexample :
    CPU.new.stack_pointer = 0 ∧ (0 : Nat) ≠ 0xFD ∧
    CPU.new.flags = 0 ∧ CPU.new.flags.testBit 5 = false := by
  refine ⟨rfl, by decide, rfl, by decide⟩

/-- C2, amended.  After construction the accumulator, both index
registers, the stack pointer, the status byte and the cycle counter are
all `0` and the program counter is the constant `0xFFFC`; this state is a
fixed point of `reset()` (so construction does yield the reset state of
this stage, which differs from the specification's reset state in the
stack pointer and the Unused bit). -/
theorem new_is_reset_state :
    CPU.new.accumulator = 0 ∧
    CPU.new.index_register_x = 0 ∧
    CPU.new.index_register_y = 0 ∧
    CPU.new.stack_pointer = 0 ∧
    CPU.new.flags = 0 ∧
    CPU.new.cycle = 0 ∧
    CPU.new.program_counter = 0xFFFC ∧
    CPU.new.reset = CPU.new := by
  refine ⟨rfl, rfl, rfl, rfl, rfl, rfl, rfl, by decide⟩

/-- C3, counterexample.  With the stack pointer at `0x02`, pushing a byte
stores it at `0x0102` but moves the stack pointer up to `0x03`; the
claimed post-decrement would have left it at `0x01`. -/
theorem push_byte_claim_counterexample :
    ((push_byte_to_stack { CPU.new with stack_pointer := 2 } 0xDF mem0).1).stack_pointer = 3 ∧
    (3 : Nat) ≠ 1 ∧
    ((push_byte_to_stack { CPU.new with stack_pointer := 2 } 0xDF mem0).2) 0x0102 = 0xDF := by
  refine ⟨rfl, by decide, rfl⟩

/-- C3, amended.  `push_byte` writes the value to stack address
`0x0100 | S` and then increments `S` by one, charging exactly one cycle
tick; `pop_byte` (modelled from the spec, it is absent from the snapshot)
increments `S` before reading, also one tick per byte. -/
theorem push_and_pop_byte_spec (c : CPU) (v : Nat) (mem : Mem) :
    ((push_byte_to_stack c v mem).2) (0x0100 ||| (c.stack_pointer % 256)) = v % 256 ∧
    ((push_byte_to_stack c v mem).1).stack_pointer = (c.stack_pointer + 1) % 256 ∧
    ((push_byte_to_stack c v mem).1).cycle = c.cycle + 1 ∧
    ((pop_byte_from_stack c mem).1).stack_pointer = (c.stack_pointer + 1) % 256 ∧
    (pop_byte_from_stack c mem).2 = mem (0x0100 ||| ((c.stack_pointer + 1) % 256)) % 256 ∧
    ((pop_byte_from_stack c mem).1).cycle = c.cycle + 1 := by
  refine ⟨?_, rfl, rfl, rfl, rfl, rfl⟩
  simp [push_byte_to_stack]

/-- C8.  Every bus-access primitive of this stage charges exactly one
cycle per byte transferred (two for the two-byte `fetch_word`), and no
modelled operation ever decreases the cycle counter (`new` and `reset` do
not touch it). -/
theorem bus_primitives_tick_once (c : CPU) (addr v : Nat) (mem : Mem) :
    ((access_memory c addr mem).1).cycle = c.cycle + 1 ∧
    ((fetch_byte c mem).1).cycle = c.cycle + 1 ∧
    ((put_into_memory c addr v mem).1).cycle = c.cycle + 1 ∧
    ((push_byte_to_stack c v mem).1).cycle = c.cycle + 1 ∧
    ((pop_byte_from_stack c mem).1).cycle = c.cycle + 1 ∧
    ((fetch_word c mem).1).cycle = c.cycle + 2 ∧
    (c.reset).cycle = c.cycle ∧
    c.cycle ≤ ((access_memory c addr mem).1).cycle ∧
    c.cycle ≤ ((fetch_word c mem).1).cycle := by
  refine ⟨rfl, rfl, rfl, rfl, rfl, rfl, rfl, ?_, ?_⟩
  · show c.cycle ≤ c.cycle + 1
    omega
  · show c.cycle ≤ c.cycle + 1 + 1
    omega

/-- C8, witness: the cycle equations at a concrete state, address and
value. -/
theorem bus_primitives_tick_once_witness :
    ((access_memory sample 0x0003 mem0).1).cycle = sample.cycle + 1 ∧
    ((fetch_byte sample mem0).1).cycle = sample.cycle + 1 ∧
    ((put_into_memory sample 0x0003 0xDF mem0).1).cycle = sample.cycle + 1 ∧
    ((push_byte_to_stack sample 0xDF mem0).1).cycle = sample.cycle + 1 ∧
    ((pop_byte_from_stack sample mem0).1).cycle = sample.cycle + 1 ∧
    ((fetch_word sample mem0).1).cycle = sample.cycle + 2 ∧
    (sample.reset).cycle = sample.cycle ∧
    sample.cycle ≤ ((access_memory sample 0x0003 mem0).1).cycle ∧
    sample.cycle ≤ ((fetch_word sample mem0).1).cycle :=
  bus_primitives_tick_once sample 0x0003 0xDF mem0

/-- C9.  `fetch_word` returns the little-endian combination of the bytes
at the program counter (low byte) and at the next address (high byte), and
advances the program counter by exactly two (modulo the `u16` width) and
the cycle counter by exactly two. -/
theorem fetch_word_little_endian (c : CPU) (mem : Mem) :
    (fetch_word c mem).2 =
      mem c.program_counter % 256 +
        256 * (mem ((c.program_counter + 1) % 65536) % 256) ∧
    ((fetch_word c mem).1).program_counter = (c.program_counter + 2) % 65536 ∧
    ((fetch_word c mem).1).cycle = c.cycle + 2 := by
  refine ⟨?_, ?_, rfl⟩
  · show mem ((c.program_counter + 1) % 65536) % 256 * 256 +
        mem c.program_counter % 256 =
      mem c.program_counter % 256 +
        256 * (mem ((c.program_counter + 1) % 65536) % 256)
    omega
  · show ((c.program_counter + 1) % 65536 + 1) % 65536 = (c.program_counter + 2) % 65536
    omega

end Cpu5602

namespace Cpu6502

/-- Byte-addressable memory of the `cpu6502` stage. -/
def Mem : Type := Nat → Nat

/-- Processor state of the `cpu6502` stage.  The fields mirror the ones
used by `src/cpu6502/src/cpu/instructions/inc_and_decrements.rs` and its
tests: registers, the status byte, the cycle counter and the 16-bit
instruction context (`None` between instructions, carried through the
cycles of one instruction). -/
structure CPU where
  accumulator : Nat
  index_register_x : Nat
  index_register_y : Nat
  stack_pointer : Nat
  program_counter : Nat
  processor_status : Nat
  cycle : Nat
  ctx : Option Nat
deriving DecidableEq, Repr

/-- Addressing modes used by the increment/decrement instructions, from
the `AddressingMode` variants the source passes to
`queued_modify_memory`. -/
inductive AddressingMode where
  | ZeroPage
  | ZeroPageX
  | Absolute
  | AbsoluteX
deriving DecidableEq, Repr

/-- Register selector, from the `Registers` enum that
`increment_register`/`decrement_register` dispatch on (the catch-all arm
of the source panics for anything but the two index registers). -/
inductive Registers where
  | Accumulator
  | IndexX
  | IndexY
deriving DecidableEq, Repr

/-- From the source: `decrement_cb` returns `value.wrapping_sub(1)`.  The
input reduction modulo 256 records the `u8` argument type. -/
def decrement_cb (value : Nat) : Nat := (value % 256 + 255) % 256

/-- From the source: `increment_cb` returns `value.wrapping_add(1)`. -/
def increment_cb (value : Nat) : Nat := (value % 256 + 1) % 256

/-- Modelled from the spec: `set_status_of_value` is in the absent
`cpu.rs`; section 4.1 specifies `set_zero_and_negative_from(v)` as
`Z ← (v == 0)`, `N ← (v & 0x80) != 0`, and the status-byte layout of
section 3 puts Zero at bit 1 and Negative at bit 7. -/
def set_status_of_value (p v : Nat) : Nat :=
  let p1 := p &&& 0b01111101
  let p2 := if v % 256 = 0 then p1 ||| 0b00000010 else p1
  if 128 ≤ v % 256 then p2 ||| 0b10000000 else p2

/-- Modelled from the spec: one operand-byte fetch of the absent
`cpu.rs` — read at the program counter, advance it, one tick
(section 4.3, `fetch_byte`). -/
def fetch_operand_byte (c : CPU) (mem : Mem) : CPU × Nat :=
  ({ c with
      program_counter := (c.program_counter + 1) % 65536
      cycle := c.cycle + 1 },
   mem c.program_counter % 256)

/-- Modelled from the spec: effective-address resolution of the absent
`cpu.rs` for the four addressing modes the increment/decrement memory
instructions use (section 4.4): Zero Page fetches the zero-page address;
Zero Page,X adds X with zero-page wrap and an extra internal cycle;
Absolute fetches the address little-endian; Absolute,X adds X and, being
a read-modify-write access, always pays the extra cycle.  The cycle
counts agree with the instruction tests
(`inc_zp` 4, `inc_zpx` 5, `inc_a` 5, `inc_ax` 6, before the opcode
fetch). -/
def resolve_addr : AddressingMode → CPU → Mem → CPU × Nat
  | .ZeroPage, c, mem => fetch_operand_byte c mem
  | .ZeroPageX, c, mem =>
      let (c1, zp) := fetch_operand_byte c mem
      ({ c1 with cycle := c1.cycle + 1 }, (zp + c.index_register_x) % 256)
  | .Absolute, c, mem =>
      let (c1, lo) := fetch_operand_byte c mem
      let (c2, hi) := fetch_operand_byte c1 mem
      (c2, hi * 256 + lo)
  | .AbsoluteX, c, mem =>
      let (c1, lo) := fetch_operand_byte c mem
      let (c2, hi) := fetch_operand_byte c1 mem
      ({ c2 with cycle := c2.cycle + 1 },
       (hi * 256 + lo + c.index_register_x) % 65536)

/-- Modelled from the spec: the read-modify-write core scheduled by the
absent `queued_modify_memory` — read the target (one tick), write the
original value back (the dummy write of section 4.4, one tick), then
write the transformed value (one tick), leaving the original value in the
context low byte and the modified value in the context high byte (the
source's status tail reads `to_le_bytes()[1]` of the context). -/
def modify_memory (am : AddressingMode) (cb : Nat → Nat) (c : CPU)
    (mem : Mem) : CPU × Mem :=
  let c1 := (resolve_addr am c mem).1
  let addr := (resolve_addr am c mem).2
  let value := mem addr % 256
  let mem2 : Mem := fun a => if a = addr then cb value % 256 else mem a
  ({ c1 with
      cycle := c1.cycle + 3
      ctx := some (value + 256 * (cb value % 256)) }, mem2)

/-- From the source: the closing task of `increment_memory` and
`decrement_memory` reads the modified value out of the high context byte
(panicking — here `none` — when the context is absent) and calls
`set_status_of_value` on it; the task returns the deferred cycle variant,
so it charges no tick. -/
def modify_status_tail (c : CPU) : Option CPU :=
  match c.ctx with
  | none => none
  | some val =>
      some { c with
        processor_status := set_status_of_value c.processor_status (val / 256 % 256) }

/-- From the source: `increment_memory` composes `queued_modify_memory`
with `increment_cb` and the status tail. -/
def increment_memory (am : AddressingMode) (c : CPU) (mem : Mem) :
    Option (CPU × Mem) :=
  (modify_status_tail (modify_memory am increment_cb c mem).1).map
    (fun c2 => (c2, (modify_memory am increment_cb c mem).2))

/-- From the source: `decrement_memory` composes `queued_modify_memory`
with `decrement_cb` and the status tail. -/
def decrement_memory (am : AddressingMode) (c : CPU) (mem : Mem) :
    Option (CPU × Mem) :=
  (modify_status_tail (modify_memory am decrement_cb c mem).1).map
    (fun c2 => (c2, (modify_memory am decrement_cb c mem).2))

/-- From the source: `increment_register` schedules one full-cycle task
calling the CPU's register increment for the two index registers and
panics (`none`) for any other register; the register update itself is in
the absent `cpu.rs` and is modelled from the spec (wrapping arithmetic,
`Z`/`N` from the result, one cycle — the test pins `inx_im` at one
cycle). -/
def increment_register_instr (r : Registers) (c : CPU) : Option CPU :=
  match r with
  | .IndexX =>
      let v := increment_cb c.index_register_x
      some { c with
        index_register_x := v
        processor_status := set_status_of_value c.processor_status v
        cycle := c.cycle + 1 }
  | .IndexY =>
      let v := increment_cb c.index_register_y
      some { c with
        index_register_y := v
        processor_status := set_status_of_value c.processor_status v
        cycle := c.cycle + 1 }
  | _ => none

/-- From the source: `decrement_register`, as `increment_register` but
with the wrapping decrement. -/
def decrement_register_instr (r : Registers) (c : CPU) : Option CPU :=
  match r with
  | .IndexX =>
      let v := decrement_cb c.index_register_x
      some { c with
        index_register_x := v
        processor_status := set_status_of_value c.processor_status v
        cycle := c.cycle + 1 }
  | .IndexY =>
      let v := decrement_cb c.index_register_y
      some { c with
        index_register_y := v
        processor_status := set_status_of_value c.processor_status v
        cycle := c.cycle + 1 }
  | _ => none

/-- From the source: `inx_im`. -/
def inx_im (c : CPU) : Option CPU := increment_register_instr .IndexX c

/-- From the source: `iny_im`. -/
def iny_im (c : CPU) : Option CPU := increment_register_instr .IndexY c

/-- From the source: `dex_im`. -/
def dex_im (c : CPU) : Option CPU := decrement_register_instr .IndexX c

/-- From the source: `dey_im`. -/
def dey_im (c : CPU) : Option CPU := decrement_register_instr .IndexY c

/-- Zero flag (status bit 1). -/
def zero_flag (c : CPU) : Bool := c.processor_status.testBit 1

/-- Negative flag (status bit 7). -/
def negative_flag (c : CPU) : Bool := c.processor_status.testBit 7

theorem set_status_zn (p v : Nat) :
    (set_status_of_value p v).testBit 1 = decide (v % 256 = 0) ∧
    (set_status_of_value p v).testBit 7 = decide (128 ≤ v % 256) := by
  have e125_1 : Nat.testBit 125 1 = false := by decide
  have e125_7 : Nat.testBit 125 7 = false := by decide
  have e2_1 : Nat.testBit 2 1 = true := by decide
  have e2_7 : Nat.testBit 2 7 = false := by decide
  have e128_1 : Nat.testBit 128 1 = false := by decide
  have e128_7 : Nat.testBit 128 7 = true := by decide
  unfold set_status_of_value
  by_cases h0 : v % 256 = 0 <;> by_cases h7 : 128 ≤ v % 256
  · exact absurd h7 (by omega)
  · simp [h0, h7, Nat.testBit_or, Nat.testBit_land, e125_1, e125_7, e2_1, e2_7]
  · simp [h0, h7, Nat.testBit_or, Nat.testBit_land, e125_1, e125_7, e128_1, e128_7]
  · simp [h0, h7, Nat.testBit_land, e125_1, e125_7]

theorem increment_cb_lt (v : Nat) : increment_cb v < 256 := by
  unfold increment_cb; omega

theorem decrement_cb_lt (v : Nat) : decrement_cb v < 256 := by
  unfold decrement_cb; omega

theorem modify_with_status_spec (am : AddressingMode) (cb : Nat → Nat)
    (c : CPU) (mem : Mem) (hcb : ∀ v, cb v < 256) :
    ∃ c2,
      modify_status_tail (modify_memory am cb c mem).1 = some c2 ∧
      (modify_memory am cb c mem).2 (resolve_addr am c mem).2 =
        cb (mem (resolve_addr am c mem).2 % 256) ∧
      zero_flag c2 = decide (cb (mem (resolve_addr am c mem).2 % 256) = 0) ∧
      negative_flag c2 =
        decide (128 ≤ cb (mem (resolve_addr am c mem).2 % 256)) := by
  have hk : cb (mem (resolve_addr am c mem).2 % 256) < 256 := hcb _
  refine ⟨_, rfl, ?_, ?_, ?_⟩
  · show (if (resolve_addr am c mem).2 = (resolve_addr am c mem).2
        then cb (mem (resolve_addr am c mem).2 % 256) % 256
        else mem (resolve_addr am c mem).2) = _
    rw [if_pos rfl, Nat.mod_eq_of_lt hk]
  · show (set_status_of_value (modify_memory am cb c mem).1.processor_status
        ((mem (resolve_addr am c mem).2 % 256 +
          256 * (cb (mem (resolve_addr am c mem).2 % 256) % 256)) / 256 % 256)).testBit 1 = _
    have harg : (mem (resolve_addr am c mem).2 % 256 +
        256 * (cb (mem (resolve_addr am c mem).2 % 256) % 256)) / 256 % 256 =
        cb (mem (resolve_addr am c mem).2 % 256) := by
      rw [Nat.mod_eq_of_lt hk]; omega
    rw [harg, (set_status_zn _ _).1, Nat.mod_eq_of_lt hk]
  · show (set_status_of_value (modify_memory am cb c mem).1.processor_status
        ((mem (resolve_addr am c mem).2 % 256 +
          256 * (cb (mem (resolve_addr am c mem).2 % 256) % 256)) / 256 % 256)).testBit 7 = _
    have harg : (mem (resolve_addr am c mem).2 % 256 +
        256 * (cb (mem (resolve_addr am c mem).2 % 256) % 256)) / 256 % 256 =
        cb (mem (resolve_addr am c mem).2 % 256) := by
      rw [Nat.mod_eq_of_lt hk]; omega
    rw [harg, (set_status_zn _ _).2, Nat.mod_eq_of_lt hk]

/-- C7.  Every increment/decrement instruction computes its result with
wrapping 8-bit arithmetic (`0xFF` increments to `0x00`, `0x00` decrements
to `0xFF`), and afterwards the Zero flag holds iff the result is zero and
the Negative flag holds iff bit 7 of the result is set: for `INC`/`DEC`
through any of the four addressing modes the transformed byte written back
to the effective address is the wrapped value and `Z`/`N` reflect it, and
likewise for `INX`/`INY`/`DEX`/`DEY` on the index registers. -/
theorem inc_dec_wrap_zero_negative (am : AddressingMode) (c : CPU) (mem : Mem) :
    increment_cb 0xFF = 0x00 ∧ decrement_cb 0x00 = 0xFF ∧
    (∃ c1 mem1, increment_memory am c mem = some (c1, mem1) ∧
      mem1 (resolve_addr am c mem).2 =
        (mem (resolve_addr am c mem).2 % 256 + 1) % 256 ∧
      zero_flag c1 = decide (mem1 (resolve_addr am c mem).2 = 0) ∧
      negative_flag c1 = decide (128 ≤ mem1 (resolve_addr am c mem).2)) ∧
    (∃ c1 mem1, decrement_memory am c mem = some (c1, mem1) ∧
      mem1 (resolve_addr am c mem).2 =
        (mem (resolve_addr am c mem).2 % 256 + 255) % 256 ∧
      zero_flag c1 = decide (mem1 (resolve_addr am c mem).2 = 0) ∧
      negative_flag c1 = decide (128 ≤ mem1 (resolve_addr am c mem).2)) ∧
    (∃ c1, inx_im c = some c1 ∧
      c1.index_register_x = (c.index_register_x % 256 + 1) % 256 ∧
      zero_flag c1 = decide (c1.index_register_x = 0) ∧
      negative_flag c1 = decide (128 ≤ c1.index_register_x)) ∧
    (∃ c1, iny_im c = some c1 ∧
      c1.index_register_y = (c.index_register_y % 256 + 1) % 256 ∧
      zero_flag c1 = decide (c1.index_register_y = 0) ∧
      negative_flag c1 = decide (128 ≤ c1.index_register_y)) ∧
    (∃ c1, dex_im c = some c1 ∧
      c1.index_register_x = (c.index_register_x % 256 + 255) % 256 ∧
      zero_flag c1 = decide (c1.index_register_x = 0) ∧
      negative_flag c1 = decide (128 ≤ c1.index_register_x)) ∧
    (∃ c1, dey_im c = some c1 ∧
      c1.index_register_y = (c.index_register_y % 256 + 255) % 256 ∧
      zero_flag c1 = decide (c1.index_register_y = 0) ∧
      negative_flag c1 = decide (128 ≤ c1.index_register_y)) := by
  obtain ⟨ci, hi1, hi2, hi3, hi4⟩ :=
    modify_with_status_spec am increment_cb c mem increment_cb_lt
  obtain ⟨cd, hd1, hd2, hd3, hd4⟩ :=
    modify_with_status_spec am decrement_cb c mem decrement_cb_lt
  have hinc : ∀ w, increment_cb (w % 256) = (w % 256 + 1) % 256 := by
    intro w; unfold increment_cb; omega
  have hdec : ∀ w, decrement_cb (w % 256) = (w % 256 + 255) % 256 := by
    intro w; unfold decrement_cb; omega
  refine ⟨rfl, rfl, ?_, ?_, ?_, ?_, ?_, ?_⟩
  · refine ⟨ci, (modify_memory am increment_cb c mem).2, ?_, ?_, ?_, ?_⟩
    · show (modify_status_tail (modify_memory am increment_cb c mem).1).map _ = _
      rw [hi1]; rfl
    · rw [hi2, hinc]
    · rw [hi3, hi2]
    · rw [hi4, hi2]
  · refine ⟨cd, (modify_memory am decrement_cb c mem).2, ?_, ?_, ?_, ?_⟩
    · show (modify_status_tail (modify_memory am decrement_cb c mem).1).map _ = _
      rw [hd1]; rfl
    · rw [hd2, hdec]
    · rw [hd3, hd2]
    · rw [hd4, hd2]
  · refine ⟨_, rfl, ?_, ?_, ?_⟩
    · show increment_cb c.index_register_x = _
      unfold increment_cb; omega
    · show (set_status_of_value _ _).testBit 1 = _
      rw [(set_status_zn _ _).1]
      show decide (increment_cb c.index_register_x % 256 = 0) = _
      rw [Nat.mod_eq_of_lt (increment_cb_lt _)]
    · show (set_status_of_value _ _).testBit 7 = _
      rw [(set_status_zn _ _).2]
      show decide (128 ≤ increment_cb c.index_register_x % 256) = _
      rw [Nat.mod_eq_of_lt (increment_cb_lt _)]
  · refine ⟨_, rfl, ?_, ?_, ?_⟩
    · show increment_cb c.index_register_y = _
      unfold increment_cb; omega
    · show (set_status_of_value _ _).testBit 1 = _
      rw [(set_status_zn _ _).1]
      show decide (increment_cb c.index_register_y % 256 = 0) = _
      rw [Nat.mod_eq_of_lt (increment_cb_lt _)]
    · show (set_status_of_value _ _).testBit 7 = _
      rw [(set_status_zn _ _).2]
      show decide (128 ≤ increment_cb c.index_register_y % 256) = _
      rw [Nat.mod_eq_of_lt (increment_cb_lt _)]
  · refine ⟨_, rfl, ?_, ?_, ?_⟩
    · show decrement_cb c.index_register_x = _
      unfold decrement_cb; omega
    · show (set_status_of_value _ _).testBit 1 = _
      rw [(set_status_zn _ _).1]
      show decide (decrement_cb c.index_register_x % 256 = 0) = _
      rw [Nat.mod_eq_of_lt (decrement_cb_lt _)]
    · show (set_status_of_value _ _).testBit 7 = _
      rw [(set_status_zn _ _).2]
      show decide (128 ≤ decrement_cb c.index_register_x % 256) = _
      rw [Nat.mod_eq_of_lt (decrement_cb_lt _)]
  · refine ⟨_, rfl, ?_, ?_, ?_⟩
    · show decrement_cb c.index_register_y = _
      unfold decrement_cb; omega
    · show (set_status_of_value _ _).testBit 1 = _
      rw [(set_status_zn _ _).1]
      show decide (decrement_cb c.index_register_y % 256 = 0) = _
      rw [Nat.mod_eq_of_lt (decrement_cb_lt _)]
    · show (set_status_of_value _ _).testBit 7 = _
      rw [(set_status_zn _ _).2]
      show decide (128 ≤ decrement_cb c.index_register_y % 256) = _
      rw [Nat.mod_eq_of_lt (decrement_cb_lt _)]

/-- Memory initialised from a list prefix, as `MemoryMock::new` in the
instruction tests. -/
def mm (l : List Nat) : Mem := fun a => l.getD a 0

/-- A processor in the state the instruction tests start from: program
counter zero, cycle counter zero, status byte zero, no context. -/
def test_cpu : CPU :=
  { accumulator := 0
    index_register_x := 0
    index_register_y := 0
    stack_pointer := 0
    program_counter := 0
    processor_status := 0
    cycle := 0
    ctx := none }

/-- Sanity check against the pinned tests `inx_im::*` and specification
scenario (c): incrementing `X = 0xFF` wraps to `0`, sets the Zero flag
byte to `0b10`, and costs one cycle. -/
theorem sanity_inx_wrap :
    (inx_im { test_cpu with index_register_x := 0xFF }).map
      (fun c1 => (c1.index_register_x, c1.processor_status, c1.cycle)) =
      some (0, 0b10, 1) := by decide

/-- Sanity check against the pinned tests `inc_zp::*` and specification
scenario (b): `INC` zero-page on the program `[0x03, 0xFF, 0x00, 0x02]`
increments the byte at `0x03` to `0x03`, costs four cycles before the
opcode fetch, and leaves the status byte zero. -/
theorem sanity_inc_zp :
    (increment_memory .ZeroPage test_cpu (mm [3, 0xFF, 0, 2])).map
      (fun p => (p.2 3, p.1.cycle, p.1.processor_status)) =
      some (3, 4, 0) := by decide

/-- Sanity check against the pinned tests `dec_zp::*`: `DEC` zero-page of
the value `0x01` stores `0x00` and sets the status byte to `0b10`, in
four cycles. -/
theorem sanity_dec_zp :
    (decrement_memory .ZeroPage test_cpu (mm [3, 0xFF, 0, 1])).map
      (fun p => (p.2 3, p.1.cycle, p.1.processor_status)) =
      some (0, 4, 0b10) := by decide

/-- Sanity check against the pinned tests `inc_ax::*`: `INC` absolute,X
with `X = 2` on the program `[0x02, 0x00, 0x00, 0x00, 0x09]` increments
the byte at `0x0004` in six cycles before the opcode fetch. -/
theorem sanity_inc_ax :
    (increment_memory .AbsoluteX { test_cpu with index_register_x := 2 }
        (mm [2, 0, 0, 0, 9])).map
      (fun p => (p.2 4, p.1.cycle)) = some (10, 6) := by decide

end Cpu6502

namespace Branches

/-- Byte-addressable memory of the latest stage; the CPU owns a handle to
it (the source wraps it in a shared-mutable cell). -/
def Mem : Type := Nat → Nat

/-- Processor state of the latest (`src/src`) stage, with the fields the
branch instructions use: the program counter, the cycle counter, the
optional 16-bit instruction context (`get_current_instruction_ctx`
returns `Option`), the four tested status flags and the memory handle. -/
structure CPU where
  program_counter : Nat
  cycle : Nat
  ctx : Option Nat
  carry_flag : Bool
  zero_flag : Bool
  negative_flag : Bool
  overflow_flag : Bool
  memory : Mem

/-- From the source: the three task outcomes of `TaskCycleVariant`.  The
middle variant (called Partial in the source) is bundled with the
adjacent cycle and charges no independent tick. -/
inductive TaskCycleVariant where
  | Full
  | Deferred
  | Aborted
deriving DecidableEq, Repr

/-- A scheduled cycle task; `none` models the source's panic. -/
def ScheduledTask : Type := CPU → Option (CPU × TaskCycleVariant)

/-- Modelled from the spec: `access_memory(addr)` of the absent `cpu.rs`
reads the byte at `addr` through the memory handle (section 4.3).  In
this stage the tick of a bus access is charged by the scheduler when the
enclosing task reports a full cycle, so the counter is ticked once per
task, exactly as the instruction tests pin (for example `inx_im`, whose
only task makes no bus access, still costs one cycle). -/
def access_memory (c : CPU) (addr : Nat) : Nat := c.memory addr % 256

/-- Modelled from the spec: `increment_program_counter` of the absent
`cpu.rs` — advance the 16-bit program counter by one, wrapping. -/
def increment_program_counter (c : CPU) : CPU :=
  { c with program_counter := (c.program_counter + 1) % 65536 }

/-- Modelled from the spec: `set_ctx_lo` of the absent `cpu.rs` stores a
byte into the low half of the 16-bit instruction context, making the
context present (section 3, instruction context). -/
def set_ctx_lo (c : CPU) (v : Nat) : CPU :=
  { c with ctx := some (c.ctx.getD 0 / 256 % 256 * 256 + v % 256) }

/-- Modelled from the spec: `set_ctx_hi` of the absent `cpu.rs` stores a
byte into the high half of the 16-bit instruction context, making the
context present. -/
def set_ctx_hi (c : CPU) (v : Nat) : CPU :=
  { c with ctx := some (v % 256 * 256 + c.ctx.getD 0 % 256) }

/-- Modelled from the spec: the scheduler loop of section 4.3 draining a
task queue in FIFO order.  A task reporting a full cycle ticks the
counter once before the next task runs, the deferred variant ticks
nothing, and an aborted task discards the remaining queued tasks while
preserving every tick already charged; a panicking task (`none`)
terminates the run. -/
def run_tasks : List ScheduledTask → CPU → Option CPU
  | [], c => some c
  | t :: ts, c =>
    match t c with
    | none => none
    | some (c1, .Full) => run_tasks ts { c1 with cycle := c1.cycle + 1 }
    | some (c1, .Deferred) => run_tasks ts c1
    | some (c1, .Aborted) => some c1

/-- From the source: the body of the first task `branch` schedules —
fetch the operand at the program counter, advance the program counter,
store the operand into the context low byte, and raise the context high
byte to `0x1` when the branch condition holds. -/
def branch_body (condition : CPU → Bool) (c : CPU) : CPU :=
  let operand := access_memory c c.program_counter
  let c1 := increment_program_counter c
  let c2 := set_ctx_lo c1 operand
  if condition c2 then set_ctx_hi c2 1 else c2

/-- From the source: the first task `branch` schedules, always a full
cycle. -/
def branch_first_task (condition : CPU → Bool) : ScheduledTask :=
  fun c => some (branch_body condition c, .Full)

/-- From the source: the direction test `0b10000000 & offset > 0`. -/
def negative_offset_direction (offset : Nat) : Bool :=
  0 < 0b10000000 &&& offset

/-- From the source: the magnitude `(offset ^ 0b11111111) + 1` used for
the negative direction, and the raw offset otherwise. -/
def directionless_offset (offset : Nat) : Nat :=
  if negative_offset_direction offset then (offset ^^^ 0b11111111) + 1
  else offset

/-- From the source: the arithmetic of the first `offset_program_counter`
cycle — split the program counter into little-endian bytes, offset the
low byte by the magnitude with `overflowing_sub` (negative direction) or
`overflowing_add` (positive direction), reassemble with the old high
byte, and report the borrow/carry as `1` or `0`. -/
def offset_lo_cycle (pc offset : Nat) : Nat × Nat :=
  let program_counter_lo := pc % 256
  let program_counter_hi := pc / 256 % 256
  let m := directionless_offset offset
  if negative_offset_direction offset then
    (program_counter_hi * 256 + (program_counter_lo + 256 - m % 256) % 256,
     if program_counter_lo < m % 256 then 1 else 0)
  else
    (program_counter_hi * 256 + (program_counter_lo + m) % 256,
     if 256 ≤ program_counter_lo + m then 1 else 0)

/-- From the source: the arithmetic of the second
`offset_program_counter` cycle — adjust the program-counter high byte by
one, wrapping, downward for the negative direction and upward
otherwise, keeping the low byte. -/
def offset_hi_cycle (pc offset : Nat) : Nat :=
  let program_counter_lo := pc % 256
  let program_counter_hi := pc / 256 % 256
  if negative_offset_direction offset then
    (program_counter_hi + 255) % 256 * 256 + program_counter_lo
  else
    (program_counter_hi + 1) % 256 * 256 + program_counter_lo

/-- From the source: the first queued task of `offset_program_counter` —
panic (`none`) when the context is absent, abort when the condition byte
in the context high half is zero, otherwise run the low-byte cycle and
store the carry into the context high half. -/
def offset_task_lo : ScheduledTask := fun c =>
  match c.ctx with
  | none => none
  | some val =>
    let offset := val % 256
    let condition_met := val / 256 % 256
    if condition_met = 0 then some (c, .Aborted)
    else
      let r := offset_lo_cycle c.program_counter offset
      some (set_ctx_hi { c with program_counter := r.1 } r.2, .Full)

/-- From the source: the second queued task of `offset_program_counter` —
panic (`none`) when the context is absent, abort when the carry stored by
the previous cycle is zero, otherwise run the high-byte cycle. -/
def offset_task_hi : ScheduledTask := fun c =>
  match c.ctx with
  | none => none
  | some val =>
    let offset := val % 256
    let carry := val / 256 % 256
    if carry = 0 then some (c, .Aborted)
    else
      some ({ c with
        program_counter := offset_hi_cycle c.program_counter offset }, .Full)

/-- Modelled from the spec: the state right after the scheduler's opcode
fetch (section 4.3) — the program counter advanced past the opcode byte,
one cycle charged, and the instruction context cleared between
instructions (section 3). -/
def begin_state (c : CPU) : CPU :=
  { c with
    program_counter := (c.program_counter + 1) % 65536
    cycle := c.cycle + 1
    ctx := none }

/-- The state after the body of the first branch task has fetched the
operand and stored it into the context low byte, before the condition is
consulted. -/
def operand_state (c : CPU) : CPU :=
  set_ctx_lo (increment_program_counter (begin_state c))
    (access_memory (begin_state c) (begin_state c).program_counter)

/-- Modelled from the spec: entry into `execute_next_instruction` with an
empty queue (section 4.3) — fetch the opcode byte at the program counter
(one tick, program counter advanced), with the instruction context
cleared between instructions (section 3), then drain the scheduled
queue.  `branch` schedules its first task followed by the two
`offset_program_counter` tasks. -/
def execute_branch (condition : CPU → Bool) (c : CPU) : Option CPU :=
  run_tasks [branch_first_task condition, offset_task_lo, offset_task_hi]
    (begin_state c)

/-- From the source: the `bcc` condition — carry flag clear. -/
def bcc_condition (c : CPU) : Bool := !c.carry_flag

/-- From the source: the `bcs` condition — carry flag set. -/
def bcs_condition (c : CPU) : Bool := c.carry_flag

/-- From the source: the `beq` condition — zero flag set. -/
def beq_condition (c : CPU) : Bool := c.zero_flag

/-- From the source: the `bmi` condition — negative flag set. -/
def bmi_condition (c : CPU) : Bool := c.negative_flag

/-- From the source: the `bne` condition — zero flag clear. -/
def bne_condition (c : CPU) : Bool := !c.zero_flag

/-- From the source: the `bpl` condition — negative flag clear. -/
def bpl_condition (c : CPU) : Bool := !c.negative_flag

/-- From the source: the `bvs` condition — overflow flag set. -/
def bvs_condition (c : CPU) : Bool := c.overflow_flag

/-- From the source: the `bvc` condition — overflow flag clear. -/
def bvc_condition (c : CPU) : Bool := !c.overflow_flag

/-- The eight branch opcodes the source defines. -/
inductive BranchOp where
  | BCC
  | BCS
  | BEQ
  | BNE
  | BMI
  | BPL
  | BVC
  | BVS
deriving DecidableEq, Repr

/-- Condition function of each branch opcode, as passed to `branch`. -/
def condition_of : BranchOp → CPU → Bool
  | .BCC => bcc_condition
  | .BCS => bcs_condition
  | .BEQ => beq_condition
  | .BNE => bne_condition
  | .BMI => bmi_condition
  | .BPL => bpl_condition
  | .BVC => bvc_condition
  | .BVS => bvs_condition

/-- Relative-branch target as worded by the specification: sign-extend
the offset byte and add it to the program counter modulo `2^16`. -/
def add_signed_offset (pc offset : Nat) : Nat :=
  (pc + (if 128 ≤ offset then offset + 0xFF00 else offset)) % 65536

/-- From the source: the complete program-counter offsetting of a taken
branch as a pure function — the low-byte cycle always runs, the
high-byte cycle only when the low-byte computation carried or
borrowed. -/
def offset_program_counter_fn (pc offset : Nat) : Nat :=
  let r := offset_lo_cycle pc offset
  if r.2 = 0 then r.1 else offset_hi_cycle r.1 offset

set_option maxRecDepth 4000 in
theorem xor_255_eq (o : Nat) (h : o < 256) : o ^^^ 0b11111111 = 255 - o := by
  have hall : ∀ x : Fin 256, (x.val ^^^ 0b11111111) = 255 - x.val := by decide
  exact hall ⟨o, h⟩

set_option maxRecDepth 4000 in
theorem negative_offset_direction_eq (o : Nat) (h : o < 256) :
    negative_offset_direction o = decide (128 ≤ o) := by
  have hall : ∀ x : Fin 256,
      negative_offset_direction x.val = decide (128 ≤ x.val) := by decide
  exact hall ⟨o, h⟩

theorem offset_cycles_correct (pc offset : Nat)
    (hpc : pc < 65536) (hoff : offset < 256) :
    offset_program_counter_fn pc offset = add_signed_offset pc offset ∧
    ((offset_lo_cycle pc offset).2 = 0 ↔
      add_signed_offset pc offset / 256 = pc / 256) := by
  unfold offset_program_counter_fn offset_lo_cycle offset_hi_cycle
    directionless_offset add_signed_offset
  by_cases hneg : 128 ≤ offset
  · have hdir : negative_offset_direction offset = true := by
      rw [negative_offset_direction_eq offset hoff]; simpa using hneg
    rw [xor_255_eq offset hoff]
    simp only [hdir, if_true]
    rw [if_pos hneg]
    split_ifs
    all_goals try exact False.elim (by assumption)
    all_goals refine ⟨by omega, ?_⟩
    all_goals simp only [false_iff, eq_self_iff_true, true_iff]
    all_goals omega
  · have hdir : negative_offset_direction offset = false := by
      rw [negative_offset_direction_eq offset hoff]; simpa using hneg
    simp only [hdir, Bool.false_eq_true, if_false]
    rw [if_neg hneg]
    split_ifs
    all_goals try exact False.elim (by assumption)
    all_goals refine ⟨by omega, ?_⟩
    all_goals simp only [false_iff, eq_self_iff_true, true_iff]
    all_goals omega

theorem run_tasks_cons_full (t : ScheduledTask) (ts : List ScheduledTask)
    (s s1 : CPU) (h : t s = some (s1, .Full)) :
    run_tasks (t :: ts) s = run_tasks ts { s1 with cycle := s1.cycle + 1 } := by
  simp only [run_tasks, h]

theorem run_tasks_cons_aborted (t : ScheduledTask) (ts : List ScheduledTask)
    (s s1 : CPU) (h : t s = some (s1, .Aborted)) :
    run_tasks (t :: ts) s = some s1 := by
  simp only [run_tasks, h]

theorem branch_first_task_eval (condition : CPU → Bool) (s : CPU) :
    branch_first_task condition s = some (branch_body condition s, .Full) := rfl

theorem branch_body_eval (condition : CPU → Bool) (c : CPU) :
    branch_body condition (begin_state c) =
      (if condition (operand_state c) then set_ctx_hi (operand_state c) 1
       else operand_state c) := rfl

theorem offset_task_lo_abort (s : CPU) (val : Nat) (hctx : s.ctx = some val)
    (h0 : val / 256 % 256 = 0) :
    offset_task_lo s = some (s, .Aborted) := by
  simp only [offset_task_lo, hctx]
  rw [if_pos h0]

theorem offset_task_lo_full (s : CPU) (val : Nat) (hctx : s.ctx = some val)
    (h0 : val / 256 % 256 ≠ 0) :
    offset_task_lo s =
      some (set_ctx_hi
        { s with
          program_counter := (offset_lo_cycle s.program_counter (val % 256)).1 }
        (offset_lo_cycle s.program_counter (val % 256)).2, .Full) := by
  simp only [offset_task_lo, hctx]
  rw [if_neg h0]

theorem offset_task_hi_abort (s : CPU) (val : Nat) (hctx : s.ctx = some val)
    (h0 : val / 256 % 256 = 0) :
    offset_task_hi s = some (s, .Aborted) := by
  simp only [offset_task_hi, hctx]
  rw [if_pos h0]

theorem offset_task_hi_full (s : CPU) (val : Nat) (hctx : s.ctx = some val)
    (h0 : val / 256 % 256 ≠ 0) :
    offset_task_hi s =
      some ({ s with
        program_counter := offset_hi_cycle s.program_counter (val % 256) },
        .Full) := by
  simp only [offset_task_hi, hctx]
  rw [if_neg h0]

theorem run_tasks_nil (s : CPU) : run_tasks [] s = some s := rfl

theorem offset_lo_cycle_carry_le (pc o : Nat) : (offset_lo_cycle pc o).2 ≤ 1 := by
  unfold offset_lo_cycle
  by_cases h : negative_offset_direction o = true
  · rw [if_pos h]
    show (if pc % 256 < directionless_offset o % 256 then 1 else 0) ≤ 1
    split_ifs <;> omega
  · rw [if_neg h]
    show (if 256 ≤ pc % 256 + directionless_offset o then 1 else 0) ≤ 1
    split_ifs <;> omega

theorem execute_branch_not_taken (condition : CPU → Bool) (c : CPU)
    (hb : condition (operand_state c) = false) :
    (execute_branch condition c).map CPU.cycle = some (c.cycle + 2) ∧
    (execute_branch condition c).map CPU.program_counter =
      some ((c.program_counter + 2) % 65536) := by
  have hbody : branch_body condition (begin_state c) = operand_state c := by
    rw [branch_body_eval, hb]
    simp
  have hrw1 : execute_branch condition c =
      run_tasks [offset_task_lo, offset_task_hi]
        { operand_state c with cycle := (operand_state c).cycle + 1 } := by
    show run_tasks [branch_first_task condition, offset_task_lo, offset_task_hi]
        (begin_state c) = _
    rw [run_tasks_cons_full _ _ _ _ (branch_first_task_eval condition (begin_state c)),
      hbody]
  have hctx : ({ operand_state c with cycle := (operand_state c).cycle + 1 } : CPU).ctx =
      some ((0:Nat) / 256 % 256 * 256 + (c.memory ((c.program_counter + 1) % 65536) % 256) % 256) := rfl
  have h0 : ((0:Nat) / 256 % 256 * 256 + (c.memory ((c.program_counter + 1) % 65536) % 256) % 256) / 256 % 256 = 0 := by omega
  have habort := offset_task_lo_abort _ _ hctx h0
  have hrun := run_tasks_cons_aborted _ [offset_task_hi] _ _ habort
  rw [hrw1, hrun]
  constructor
  · show some (c.cycle + 1 + 1) = some (c.cycle + 2)
    exact congrArg some (by omega)
  · show some (((c.program_counter + 1) % 65536 + 1) % 65536) =
      some ((c.program_counter + 2) % 65536)
    exact congrArg some (by omega)

theorem execute_branch_taken (condition : CPU → Bool) (c : CPU)
    (hb : condition (operand_state c) = true) :
    (execute_branch condition c).map CPU.cycle =
      some (c.cycle + 3 + (if (offset_lo_cycle ((c.program_counter + 2) % 65536) (c.memory ((c.program_counter + 1) % 65536) % 256)).2 = 0 then 0 else 1)) ∧
    (execute_branch condition c).map CPU.program_counter =
      some (offset_program_counter_fn ((c.program_counter + 2) % 65536) (c.memory ((c.program_counter + 1) % 65536) % 256)) := by
  have hO : (c.memory ((c.program_counter + 1) % 65536) % 256) < 256 := Nat.mod_lt _ (by omega)
  have hbody : branch_body condition (begin_state c) =
      set_ctx_hi (operand_state c) 1 := by
    rw [branch_body_eval, hb]
    simp
  have hrw1 : execute_branch condition c =
      run_tasks [offset_task_lo, offset_task_hi] { set_ctx_hi (operand_state c) 1 with cycle := (set_ctx_hi (operand_state c) 1).cycle + 1 } := by
    show run_tasks [branch_first_task condition, offset_task_lo, offset_task_hi]
        (begin_state c) = _
    rw [run_tasks_cons_full _ _ _ _ (branch_first_task_eval condition (begin_state c)),
      hbody]
  have hctx1 : ({ set_ctx_hi (operand_state c) 1 with cycle := (set_ctx_hi (operand_state c) 1).cycle + 1 } : CPU).ctx = some (1 % 256 * 256 + ((0:Nat) / 256 % 256 * 256 + (c.memory ((c.program_counter + 1) % 65536) % 256) % 256) % 256) := rfl
  have h1 : (1 % 256 * 256 + ((0:Nat) / 256 % 256 * 256 + (c.memory ((c.program_counter + 1) % 65536) % 256) % 256) % 256) / 256 % 256 ≠ 0 := by omega
  have hfull := offset_task_lo_full _ _ hctx1 h1
  have hpceq : ({ set_ctx_hi (operand_state c) 1 with cycle := (set_ctx_hi (operand_state c) 1).cycle + 1 } : CPU).program_counter = ((c.program_counter + 2) % 65536) := by
    show ((c.program_counter + 1) % 65536 + 1) % 65536 = (c.program_counter + 2) % 65536
    omega
  have hveq : (1 % 256 * 256 + ((0:Nat) / 256 % 256 * 256 + (c.memory ((c.program_counter + 1) % 65536) % 256) % 256) % 256) % 256 = (c.memory ((c.program_counter + 1) % 65536) % 256) := by omega
  rw [hpceq, hveq] at hfull
  have hrun1 := run_tasks_cons_full _ [offset_task_hi] _ _ hfull
  have hrle := offset_lo_cycle_carry_le ((c.program_counter + 2) % 65536) (c.memory ((c.program_counter + 1) % 65536) % 256)
  by_cases hc : (offset_lo_cycle ((c.program_counter + 2) % 65536) (c.memory ((c.program_counter + 1) % 65536) % 256)).2 = 0
  · have hctx2 : ({ set_ctx_hi { { set_ctx_hi (operand_state c) 1 with cycle := (set_ctx_hi (operand_state c) 1).cycle + 1 } with program_counter := (offset_lo_cycle ((c.program_counter + 2) % 65536) (c.memory ((c.program_counter + 1) % 65536) % 256)).1 } (offset_lo_cycle ((c.program_counter + 2) % 65536) (c.memory ((c.program_counter + 1) % 65536) % 256)).2 with
        cycle := (set_ctx_hi { { set_ctx_hi (operand_state c) 1 with cycle := (set_ctx_hi (operand_state c) 1).cycle + 1 } with program_counter := (offset_lo_cycle ((c.program_counter + 2) % 65536) (c.memory ((c.program_counter + 1) % 65536) % 256)).1 } (offset_lo_cycle ((c.program_counter + 2) % 65536) (c.memory ((c.program_counter + 1) % 65536) % 256)).2).cycle + 1 } : CPU).ctx =
        some ((offset_lo_cycle ((c.program_counter + 2) % 65536) (c.memory ((c.program_counter + 1) % 65536) % 256)).2 % 256 * 256 + (1 % 256 * 256 + ((0:Nat) / 256 % 256 * 256 + (c.memory ((c.program_counter + 1) % 65536) % 256) % 256) % 256) % 256) := rfl
    have h2 : ((offset_lo_cycle ((c.program_counter + 2) % 65536) (c.memory ((c.program_counter + 1) % 65536) % 256)).2 % 256 * 256 + (1 % 256 * 256 + ((0:Nat) / 256 % 256 * 256 + (c.memory ((c.program_counter + 1) % 65536) % 256) % 256) % 256) % 256) / 256 % 256 = 0 := by omega
    have habort2 := offset_task_hi_abort _ _ hctx2 h2
    have hrun2 := run_tasks_cons_aborted _ [] _ _ habort2
    rw [hrw1, hrun1, hrun2]
    constructor
    · show some (c.cycle + 1 + 1 + 1) = _
      rw [if_pos hc]
    · show some (offset_lo_cycle ((c.program_counter + 2) % 65536) (c.memory ((c.program_counter + 1) % 65536) % 256)).1 = _
      have hfn : offset_program_counter_fn ((c.program_counter + 2) % 65536) (c.memory ((c.program_counter + 1) % 65536) % 256) = (offset_lo_cycle ((c.program_counter + 2) % 65536) (c.memory ((c.program_counter + 1) % 65536) % 256)).1 := by
        unfold offset_program_counter_fn
        rw [if_pos hc]
      rw [hfn]
  · have hctx2 : ({ set_ctx_hi { { set_ctx_hi (operand_state c) 1 with cycle := (set_ctx_hi (operand_state c) 1).cycle + 1 } with program_counter := (offset_lo_cycle ((c.program_counter + 2) % 65536) (c.memory ((c.program_counter + 1) % 65536) % 256)).1 } (offset_lo_cycle ((c.program_counter + 2) % 65536) (c.memory ((c.program_counter + 1) % 65536) % 256)).2 with
        cycle := (set_ctx_hi { { set_ctx_hi (operand_state c) 1 with cycle := (set_ctx_hi (operand_state c) 1).cycle + 1 } with program_counter := (offset_lo_cycle ((c.program_counter + 2) % 65536) (c.memory ((c.program_counter + 1) % 65536) % 256)).1 } (offset_lo_cycle ((c.program_counter + 2) % 65536) (c.memory ((c.program_counter + 1) % 65536) % 256)).2).cycle + 1 } : CPU).ctx =
        some ((offset_lo_cycle ((c.program_counter + 2) % 65536) (c.memory ((c.program_counter + 1) % 65536) % 256)).2 % 256 * 256 + (1 % 256 * 256 + ((0:Nat) / 256 % 256 * 256 + (c.memory ((c.program_counter + 1) % 65536) % 256) % 256) % 256) % 256) := rfl
    have h2 : ((offset_lo_cycle ((c.program_counter + 2) % 65536) (c.memory ((c.program_counter + 1) % 65536) % 256)).2 % 256 * 256 + (1 % 256 * 256 + ((0:Nat) / 256 % 256 * 256 + (c.memory ((c.program_counter + 1) % 65536) % 256) % 256) % 256) % 256) / 256 % 256 ≠ 0 := by omega
    have hfull2 := offset_task_hi_full _ _ hctx2 h2
    have hveq2 : ((offset_lo_cycle ((c.program_counter + 2) % 65536) (c.memory ((c.program_counter + 1) % 65536) % 256)).2 % 256 * 256 + (1 % 256 * 256 + ((0:Nat) / 256 % 256 * 256 + (c.memory ((c.program_counter + 1) % 65536) % 256) % 256) % 256) % 256) % 256 = (c.memory ((c.program_counter + 1) % 65536) % 256) := by omega
    rw [hveq2] at hfull2
    have hrun2 := run_tasks_cons_full _ [] _ _ hfull2
    rw [hrw1, hrun1, hrun2]
    constructor
    · show some (c.cycle + 1 + 1 + 1 + 1) = _
      rw [if_neg hc]
    · show some (offset_hi_cycle (offset_lo_cycle ((c.program_counter + 2) % 65536) (c.memory ((c.program_counter + 1) % 65536) % 256)).1 (c.memory ((c.program_counter + 1) % 65536) % 256)) = _
      have hfn : offset_program_counter_fn ((c.program_counter + 2) % 65536) (c.memory ((c.program_counter + 1) % 65536) % 256) = offset_hi_cycle (offset_lo_cycle ((c.program_counter + 2) % 65536) (c.memory ((c.program_counter + 1) % 65536) % 256)).1 (c.memory ((c.program_counter + 1) % 65536) % 256) := by
        unfold offset_program_counter_fn
        rw [if_neg hc]
      rw [hfn]

theorem condition_of_operand_state (op : BranchOp) (c : CPU) :
    condition_of op (operand_state c) = condition_of op c := by
  cases op <;> rfl

/-- The property claim C4 states for one branch opcode at one starting
state: a not-taken branch costs 2 cycles in total (opcode fetch
included) and advances the program counter by exactly 2; a taken branch
whose sign-extended target lies in the same page as the post-operand
program counter costs 3 cycles; a taken branch whose target crosses the
page costs 4 cycles — and in both taken cases the final program counter
is the sign-extended target. -/
def branch_claim (op : BranchOp) (c : CPU) : Prop :=
  (condition_of op c = false →
    (execute_branch (condition_of op) c).map CPU.cycle = some (c.cycle + 2) ∧
    (execute_branch (condition_of op) c).map CPU.program_counter =
      some ((c.program_counter + 2) % 65536)) ∧
  (condition_of op c = true →
    add_signed_offset ((c.program_counter + 2) % 65536) (c.memory ((c.program_counter + 1) % 65536) % 256) / 256 = ((c.program_counter + 2) % 65536) / 256 →
    (execute_branch (condition_of op) c).map CPU.cycle = some (c.cycle + 3) ∧
    (execute_branch (condition_of op) c).map CPU.program_counter =
      some (add_signed_offset ((c.program_counter + 2) % 65536) (c.memory ((c.program_counter + 1) % 65536) % 256))) ∧
  (condition_of op c = true →
    add_signed_offset ((c.program_counter + 2) % 65536) (c.memory ((c.program_counter + 1) % 65536) % 256) / 256 ≠ ((c.program_counter + 2) % 65536) / 256 →
    (execute_branch (condition_of op) c).map CPU.cycle = some (c.cycle + 4) ∧
    (execute_branch (condition_of op) c).map CPU.program_counter =
      some (add_signed_offset ((c.program_counter + 2) % 65536) (c.memory ((c.program_counter + 1) % 65536) % 256)))

/-- C4.  For every branch opcode (BCC, BCS, BEQ, BNE, BMI, BPL, BVC, BVS)
executed as a full instruction including the opcode fetch: condition
false — 2 cycles and the program counter advances by exactly 2;
condition true without page cross — 3 cycles; condition true with page
cross — 4 cycles. -/
theorem branch_cycle_counts (op : BranchOp) (c : CPU)
    (hpc : c.program_counter < 65536) : branch_claim op c := by
  have hP : ((c.program_counter + 2) % 65536) < 65536 := by omega
  have hO : (c.memory ((c.program_counter + 1) % 65536) % 256) < 256 := by omega
  obtain ⟨heq, hiff⟩ := offset_cycles_correct ((c.program_counter + 2) % 65536) (c.memory ((c.program_counter + 1) % 65536) % 256) hP hO
  refine ⟨?_, ?_, ?_⟩
  · intro hf
    have hb : condition_of op (operand_state c) = false := by
      rw [condition_of_operand_state]; exact hf
    exact execute_branch_not_taken _ c hb
  · intro ht hpage
    have hb : condition_of op (operand_state c) = true := by
      rw [condition_of_operand_state]; exact ht
    obtain ⟨h1, h2⟩ := execute_branch_taken _ c hb
    have hcar : (offset_lo_cycle ((c.program_counter + 2) % 65536) (c.memory ((c.program_counter + 1) % 65536) % 256)).2 = 0 := hiff.mpr hpage
    constructor
    · rw [h1, if_pos hcar]
    · rw [h2, heq]
  · intro ht hpage
    have hb : condition_of op (operand_state c) = true := by
      rw [condition_of_operand_state]; exact ht
    obtain ⟨h1, h2⟩ := execute_branch_taken _ c hb
    have hcar : (offset_lo_cycle ((c.program_counter + 2) % 65536) (c.memory ((c.program_counter + 1) % 65536) % 256)).2 ≠ 0 := fun h0 => hpage (hiff.mp h0)
    constructor
    · rw [h1, if_neg hcar]
    · rw [h2, heq]

/-- Concrete state for the scenario of claim C5 and the witnesses: a BEQ
about to execute at `0x00FE` with the zero flag set and the operand byte
`0x05` at `0x00FF` (specification scenario (d)). -/
def scenario_cpu : CPU :=
  { program_counter := 0x00FE
    cycle := 0
    ctx := none
    carry_flag := false
    zero_flag := true
    negative_flag := false
    overflow_flag := false
    memory := fun a => if a = 0x00FF then 0x05 else 0 }

/-- C4, witness: the claim instantiated for BEQ at the concrete scenario
state. -/
theorem branch_cycle_counts_witness : branch_claim .BEQ scenario_cpu :=
  branch_cycle_counts .BEQ scenario_cpu (by decide)

/-- C5, counterexample.  Executing the scenario — BEQ at `0x00FE`, zero
flag set, operand `0x05` — yields the program counter `0x0105` but a
total of 3 cycles, not the claimed 4: the target `0x0105` lies in the
same page as the post-operand program counter `0x0100`, so no page-cross
cycle is charged. -/
theorem beq_scenario_counterexample :
    (execute_branch beq_condition scenario_cpu).map CPU.cycle = some 3 ∧
    (execute_branch beq_condition scenario_cpu).map CPU.cycle ≠ some 4 ∧
    (execute_branch beq_condition scenario_cpu).map CPU.program_counter =
      some 0x0105 := by
  refine ⟨by decide, by decide, by decide⟩

/-- C5, amended.  With the BEQ opcode at `0x00FE`, the zero flag set and
the operand byte `0x05`, executing the instruction leaves the program
counter at `0x0105` and charges a total of 3 cycles. -/
theorem beq_scenario_exec :
    (execute_branch beq_condition scenario_cpu).map CPU.program_counter =
      some 0x0105 ∧
    (execute_branch beq_condition scenario_cpu).map CPU.cycle = some 3 := by
  refine ⟨by decide, by decide⟩

/-- C6.  For every 16-bit program counter value and every offset byte,
the source's two-cycle offsetting — direction bit plus two's-complement
magnitude on the low byte, then a conditional high-byte adjustment
exactly when the low-byte operation carried or borrowed — produces the
same final program counter as adding the sign-extended offset modulo
`2^16`. -/
theorem offset_refines_signed_addition (pc offset : Nat)
    (hpc : pc < 65536) (hoff : offset < 256) :
    offset_program_counter_fn pc offset = add_signed_offset pc offset :=
  (offset_cycles_correct pc offset hpc hoff).1

/-- C6, witness: a backward page-crossing branch, offset `0x80` from
`0x0100`. -/
theorem offset_refines_signed_addition_witness :
    offset_program_counter_fn 0x0100 0x80 = add_signed_offset 0x0100 0x80 :=
  offset_refines_signed_addition 0x0100 0x80 (by decide) (by decide)

/-- C10.  For every branch condition and every starting state, executing
the branch instruction never reaches the `context for offseting program
counter is unexpectedly not set` panics: the first scheduled task
unconditionally stores the operand into the context low byte, so the
context is present (`some`) whenever either offset task inspects it, and
the run always completes normally. -/
theorem branch_never_panics (condition : CPU → Bool) (c : CPU) :
    (execute_branch condition c).isSome = true := by
  by_cases hb : condition (operand_state c) = true
  · obtain ⟨h1, h2⟩ := execute_branch_taken condition c hb
    cases hex : execute_branch condition c
    · rw [hex] at h1
      simp at h1
    · rfl
  · rw [Bool.not_eq_true] at hb
    obtain ⟨h1, h2⟩ := execute_branch_not_taken condition c hb
    cases hex : execute_branch condition c
    · rw [hex] at h1
      simp at h1
    · rfl

end Branches
